import Mathlib

/-!
Verification of the `outlookwf` ingestion pipeline specification against the
source in `src/ingest/pst_extract.py` and `src/ingest/omx_convert.py`.

The Python code is shallowly embedded: pure functions become Lean functions,
dictionaries become association lists, Python truthiness is modelled
explicitly, and calls into the standard library / third-party primitives
(`re.search`, `EMAIL_RE.findall`, `email.utils.parseaddr`,
`parsedate_to_datetime`, `dateutil.parser.parse`, `hashlib.sha1`,
MIME header decoding) are abstracted as function parameters so that the
repository's own control flow is what the theorems are about.
-/

namespace Outlookwf

/-- ASCII lower-casing of one character (Python `str.lower` on the
ASCII inputs the pipeline handles). -/
def lowerChar (c : Char) : Char :=
  if 65 ≤ c.toNat && c.toNat ≤ 90 then Char.ofNat (c.toNat + 32) else c

/-- ASCII upper-casing of one character (Python `str.upper`). -/
def upperChar (c : Char) : Char :=
  if 97 ≤ c.toNat && c.toNat ≤ 122 then Char.ofNat (c.toNat - 32) else c

/-- Python `s.lower()`. -/
def strLower (s : String) : String :=
  String.mk (s.data.map lowerChar)

/-- Python `s.upper()`. -/
def strUpper (s : String) : String :=
  String.mk (s.data.map upperChar)

/-- Python whitespace for `str.strip()`. -/
def isWS (c : Char) : Bool :=
  c == ' ' || c == '\t' || c == '\n' || c == '\r'

/-- Python `s.strip()`. -/
def strTrim (s : String) : String :=
  String.mk (((s.data.dropWhile isWS).reverse.dropWhile isWS).reverse)

/-- Split a character list on a separator character
(Python `s.split(c)`: `"".split(c) = [""]`). -/
def splitChar (c : Char) : List Char → List (List Char)
  | [] => [[]]
  | x :: xs =>
    if x == c then [] :: splitChar c xs
    else
      match splitChar c xs with
      | [] => [[x]]
      | g :: gs => (x :: g) :: gs

/-- Python `s.split(c)` on strings. -/
def strSplitChar (s : String) (c : Char) : List String :=
  (splitChar c s.data).map String.mk

/-- Prefix test on character lists (helper for substring containment). -/
def charsPre : List Char → List Char → Bool
  | [], _ => true
  | _ :: _, [] => false
  | a :: as, b :: bs => a == b && charsPre as bs

/-- Does `n` occur as a contiguous run inside `h`?  Models Python's
`n in h` substring test on strings. -/
def charsIn (n : List Char) : List Char → Bool
  | [] => charsPre n []
  | b :: bs => charsPre n (b :: bs) || charsIn n bs

/-- Python `needle in hay` on strings. -/
def strContains (hay needle : String) : Bool :=
  charsIn needle.data hay.data

/-- Python truthiness of an optional string (`None` and `""` are falsy). -/
def truthyOpt : Option String → Bool
  | none => false
  | some s => s ≠ ""

/-- First-match association-list lookup, modelling Python `dict[key]`
(`key in dict` / `dict.get(key)`). -/
def alookup (d : List (String × String)) (k : String) : Option String :=
  match d with
  | [] => none
  | (k', v) :: rest => if k' == k then some v else alookup rest k

/-- A `subject_patterns` override entry from `config/accounts.yml`:
`sp.get("pattern")` / `sp.get("account")` may each be absent. -/
structure SubjectPat where
  pattern : Option String
  account : Option String
  deriving Repr, DecidableEq

/-- One configured account (`cfg["accounts"]` entry): name plus alias /
domain / keyword / partner lists. -/
structure Account where
  name : String
  aliases : List String
  domains : List String
  keywords : List String
  partners : List String
  deriving Repr, DecidableEq

/-- The account/partner configuration consumed by `tag_from_config`:
exact-address overrides, subject-pattern overrides, and scored accounts. -/
structure Config where
  addresses : List (String × String)
  subject_patterns : List SubjectPat
  accounts : List Account
  deriving Repr, DecidableEq

/-- `pst_extract.py` lines 240-244: first subject-pattern override whose
pattern is present, non-empty, has an account, and matches the subject
(`re.search` abstracted as `research`). -/
def findSubjectPat (research : String → String → Bool) :
    List SubjectPat → String → Option String
  | [], _ => none
  | sp :: rest, subject =>
    match sp.pattern, sp.account with
    | some pat, some acc =>
        if pat ≠ "" && acc ≠ "" && research pat subject then some acc
        else findSubjectPat research rest subject
    | _, _ => findSubjectPat research rest subject

/-- `pst_extract.py` lines 260-266: the per-account heuristic score
(+1 alias substring, +1 keyword substring, +2 domain hit on sender or any
recipient).  `text` is the lower-cased `subject\nbody`;
`recips_lower` the lower-cased recipient list. -/
def accountScore (acc : Account) (sender_email : String)
    (recips_lower : List String) (text : String) : Nat :=
  (if acc.aliases.any (fun a => strContains text (strLower a)) then 1 else 0) +
  (if acc.keywords.any (fun k => strContains text (strLower k)) then 1 else 0) +
  (if acc.domains.any (fun d => strContains (strLower sender_email) ("@" ++ strLower d)) ||
      acc.domains.any (fun d => recips_lower.any (fun r => strContains r ("@" ++ strLower d)))
   then 2 else 0)

/-- `pst_extract.py` lines 253-275: the scored account loop.  Carries the
Python loop's mutable `primary` / `partners` / `tags` accumulators;
`score >= 2 and not primary` uses Python truthiness of `primary`. -/
def scoreLoop (sender_email : String) (recips_lower : List String) (text : String) :
    List Account → Option String → List String → List (String × String) →
    Option String × List String × List (String × String)
  | [], primary, partners, tags => (primary, partners, tags)
  | acc :: rest, primary, partners, tags =>
    let score := accountScore acc sender_email recips_lower text
    let hit := decide (2 ≤ score) && !(truthyOpt primary)
    let primary' := if hit then some acc.name else primary
    let tags' := if hit then tags ++ [(acc.name, "account")] else tags
    let newPartners := acc.partners.filter (fun p => strContains text (strLower p))
    scoreLoop sender_email recips_lower text rest primary'
      (partners ++ newPartners)
      (tags' ++ newPartners.map (fun p => (p, "partner")))

/-- `pst_extract.py` lines 232-275, `tag_from_config`: exact-address
override, then subject-pattern override, then the scored loop. -/
def tag_from_config (research : String → String → Bool) (cfg : Config)
    (sender_email : String) (recipients : List String)
    (subject body : String) :
    Option String × List String × List (String × String) :=
  match alookup cfg.addresses sender_email with
  | some t => (some t, [], [(t, "account")])
  | none =>
    match findSubjectPat research cfg.subject_patterns subject with
    | some acc => (some acc, [], [(acc, "account")])
    | none =>
      let text := strLower (subject ++ "\n" ++ body)
      let recips_lower := recipients.map strLower
      scoreLoop sender_email recips_lower text cfg.accounts none [] []

/-- One MIME part as seen by `msg.walk()`: content type, content
disposition (`None` modelled as `none`), and the `get_content()` result
(`none` models a raised exception). -/
structure Part where
  ctype : String
  disp : Option String
  content : Option String
  deriving Repr, DecidableEq

/-- An `email.message.Message`: header list in document order,
multipart flag, the walked parts (multipart case) and the single
`get_content()` result (non-multipart case, `none` = raises). -/
structure Msg where
  headers : List (String × String)
  isMultipart : Bool
  parts : List Part
  content : Option String
  deriving Repr, DecidableEq

/-- `msg.get(k)`: case-insensitive, first matching header. -/
def Msg.get (m : Msg) (k : String) : Option String :=
  (m.headers.find? (fun p => strLower p.1 == strLower k)).map (·.2)

/-- `msg.get(k, "")`. -/
def Msg.getD (m : Msg) (k : String) : String :=
  (m.get k).getD ""

/-- `msg.get_all(k, [])`: all matching header values in order. -/
def Msg.getAll (m : Msg) (k : String) : List String :=
  (m.headers.filter (fun p => strLower p.1 == strLower k)).map (·.2)

/-- `pst_extract.py` lines 153-171, `extract_body`: multipart →
concatenate the `text/plain`, non-attachment parts whose
`get_content()` succeeds, joined by blank lines; otherwise the single
content, or `""` when retrieval fails. -/
def extract_body (m : Msg) : String × Bool :=
  if m.isMultipart then
    (String.intercalate "\n\n"
      ((m.parts.filter (fun p =>
          p.disp ≠ some "attachment" && p.ctype == "text/plain")).filterMap
        (·.content)), true)
  else
    (m.content.getD "", false)

/-- `pst_extract.py` lines 26-32, `safe_decode`: empty input gives `""`;
otherwise MIME encoded-word decoding (`decodeHdr`, `none` = raises)
with fallback to the raw string. -/
def safe_decode (decodeHdr : String → Option String) (s : String) : String :=
  if s = "" then "" else (decodeHdr s).getD s

/-- A parsed `datetime` as far as the pipeline inspects it: whether
`tzinfo` is set, and the `strftime("%Y-%m-%dT%H:%M:%SZ")` rendering. -/
structure DT where
  tzaware : Bool
  fmt : String
  deriving Repr, DecidableEq

/-- `pst_extract.py` lines 35-43, `iso`: `None` → `None`; a tz-aware
datetime hits `dt.astimezone(datetime.utc)` — `datetime.utc` does not
exist, so that branch raises `AttributeError`, the handler returns
`None`; a naive datetime is formatted. -/
def iso : Option DT → Option String
  | none => none
  | some d => if d.tzaware then none else some d.fmt

/-- `pst_extract.py` lines 46-52, `compute_external_id`:
`Message-ID` (or `Message-Id`) header stripped when present, else
`sha1(From + Date + Subject)` (the SHA-1 primitive is the `sha1`
parameter). -/
def compute_external_id (sha1 : String → String) (m : Msg) : String :=
  let mid := if truthyOpt (m.get "Message-ID") then m.getD "Message-ID"
             else if truthyOpt (m.get "Message-Id") then m.getD "Message-Id"
             else ""
  if mid ≠ "" then strTrim mid
  else sha1 (m.getD "From" ++ m.getD "Date" ++ m.getD "Subject")

/-- The canonical message record assembled by `process_message`
(header path) or `parse_message_xml` (XML path).  Header-path string
fields are wrapped in `some`; the XML path stores `none` where Python
stores `None`. -/
structure Rec where
  external_id : String
  thread_id : Option String
  folder : Option String
  sender_name : Option String
  sender_email : Option String
  recipients_to : Option String
  recipients_cc : Option String
  recipients_bcc : Option String
  subject : Option String
  body : Option String
  sent_at : Option String
  received_at : Option String
  account_tag : Option String
  partner_tags : Option String
  deriving Repr, DecidableEq

/-- The standard-library / third-party primitives `process_message`
calls, abstracted: `re.search`, MIME header decoding,
`email.utils.parseaddr(x)[1]`, `parsedate_to_datetime` (`none` models a
raised `ValueError`), and `hashlib.sha1`. -/
structure Prims where
  research : String → String → Bool
  decodeHdr : String → Option String
  parseaddr : String → String
  parsedate : String → Option DT
  sha1 : String → String

/-- `pst_extract.py` line 312-314 pattern: join the parsed address of
every header occurrence with `";"`. -/
def joinAddrs (parseaddr : String → String) (vals : List String) : String :=
  String.intercalate ";" (vals.map parseaddr)

/-- `pst_extract.py` lines 315-321: rebuild the recipient list from the
already-joined strings (extended only when the joined string is
non-empty). -/
def recipListOf (tos ccs bccs : String) : List String :=
  (if tos ≠ "" then strSplitChar tos ';' else []) ++
  (if ccs ≠ "" then strSplitChar ccs ';' else []) ++
  (if bccs ≠ "" then strSplitChar bccs ';' else [])

/-- `pst_extract.py` line 325:
`sent = iso(parsedate_to_datetime(date_hdr)) if date_hdr else None`.
`Except.error` models the uncaught `ValueError` that
`parsedate_to_datetime` raises on a malformed `Date` header — there is
no handler around this call. -/
def sentAt (parsedate : String → Option DT) (date_hdr : Option String) :
    Except String (Option String) :=
  if truthyOpt date_hdr then
    match parsedate (date_hdr.getD "") with
    | none => .error "ValueError: unparseable Date header"
    | some dt => .ok (iso (some dt))
  else .ok none

/-- `pst_extract.py` lines 309-350, the pure part of `process_message`:
builds the record handed to `upsert_message`, or propagates the
date-parsing exception. -/
def process_message (pp : Prims) (cfg : Config) (m : Msg)
    (folder : Option String) : Except String Rec :=
  let body := (extract_body m).1
  let sender := pp.parseaddr (m.getD "From")
  let tos := joinAddrs pp.parseaddr (m.getAll "To")
  let ccs := joinAddrs pp.parseaddr (m.getAll "Cc")
  let bccs := joinAddrs pp.parseaddr (m.getAll "Bcc")
  let recipients := recipListOf tos ccs bccs
  let subject := safe_decode pp.decodeHdr (m.getD "Subject")
  match sentAt pp.parsedate (m.get "Date") with
  | .error e => .error e
  | .ok sent =>
  let external_id := compute_external_id pp.sha1 m
  let tg := tag_from_config pp.research cfg sender recipients subject body
  .ok {
    external_id := external_id
    thread_id := if truthyOpt (m.get "Thread-Index") then m.get "Thread-Index"
                 else m.get "Thread-Topic"
    folder := folder
    sender_name := some (safe_decode pp.decodeHdr (m.getD "From"))
    sender_email := some sender
    recipients_to := some tos
    recipients_cc := some ccs
    recipients_bcc := some bccs
    subject := some subject
    body := some body
    sent_at := sent
    received_at := sent
    account_tag := tg.1
    partner_tags := if tg.2.1 ≠ [] then some (String.intercalate ";" tg.2.1) else none
  }

/-- One XML element as `root.iter()` visits it: qualified tag, text
content (`None` modelled as `""` after the `or ''`), and attribute
values in order (for the `emailaddress` sender fallback). -/
structure XElem where
  tag : String
  text : String
  attrs : List String
  deriving Repr, DecidableEq

/-- An XML document = its elements in `root.iter()` (document) order. -/
abbrev XDoc := List XElem

/-- `omx_convert.py` line 22: local tag name, lower-cased
(`elem.tag.split('}')[-1].lower()`). -/
def localTag (tag : String) : String :=
  strLower ((strSplitChar tag '}').getLastD "")

/-- The flattened document: `(local tag, stripped text)` pairs in
document order, empty texts dropped.  Values of `flat[k]` are recovered
by `flatGet`. -/
abbrev Flat := List (String × String)

/-- `omx_convert.py` lines 19-27, `_flatten_xml`: walk every element,
strip its text, skip empties, bucket under the lower-cased local tag.
The dict-of-lists is represented by the pair list; `flatGet` rebuilds
each bucket. -/
def _flatten_xml (doc : XDoc) : Flat :=
  doc.filterMap (fun e =>
    let v := strTrim e.text
    if v = "" then none else some (localTag e.tag, v))

/-- `flat.get(k, [])`: the values appended under key `k`, in document
order. -/
def flatGet (flat : Flat) (k : String) : List String :=
  (flat.filter (fun p => p.1 == k)).map (·.2)

/-- `omx_convert.py` lines 30-35, `_pick`: first candidate key with a
non-empty bucket wins; its first value is returned. -/
def _pick (flat : Flat) : List String → Option String
  | [] => none
  | k :: ks =>
    match flatGet flat k with
    | [] => _pick flat ks
    | v :: _ => some v

/-- De-duplication loop of `omx_convert.py` lines 43-49: keep the first
occurrence of each element, preserving order (`seen` is the set already
emitted). -/
def dedupeKeep : List String → List String → List String
  | [], _ => []
  | e :: rest, seen =>
    if e ∈ seen then dedupeKeep rest seen
    else e :: dedupeKeep rest (e :: seen)

/-- `omx_convert.py` lines 38-50, `_collect_emails`: for each candidate
key, run `EMAIL_RE.findall` (the `findEmails` parameter) over each
value, concatenate, de-duplicate preserving first-seen order, join with
`";"`. -/
def _collect_emails (findEmails : String → List String)
    (flat : Flat) (keys : List String) : String :=
  let out := keys.flatMap (fun k => (flatGet flat k).flatMap findEmails)
  String.intercalate ";" (dedupeKeep out [])

/-- `EMAIL_RE.search` in terms of `findall`: the first match (for this
group-free regex `search` finds exactly the first `findall` element). -/
def searchEmail (findEmails : String → List String) (s : String) :
    Option String :=
  (findEmails s).head?

/-- `omx_convert.py` lines 69-83 sender fallback stage 2: first
`emailaddress`-tagged element attribute value containing an email. -/
def senderFromAttrs (findEmails : String → List String) (doc : XDoc) :
    Option String :=
  doc.findSome? (fun e =>
    if localTag e.tag == "emailaddress" then
      e.attrs.findSome? (searchEmail findEmails)
    else none)

/-- `omx_convert.py` lines 84-93 sender fallback stage 3: first
email-like substring in any flattened value, scanning `flat.items()` —
keys in first-insertion order, each key's values in document order. -/
def senderFromAnywhere (findEmails : String → List String) (flat : Flat) :
    Option String :=
  (dedupeKeep (flat.map (·.1)) []).findSome? (fun k =>
    (flatGet flat k).findSome? (searchEmail findEmails))

/-- The documented candidate key lists of `parse_message_xml`
(`omx_convert.py` lines 61-64, 95-97). -/
def subjectKeys : List String :=
  ["subject", "mssubject", "itemsubject", "title", "opfmessagecopysubject"]

def bodyKeys : List String :=
  ["body", "textbody", "plaintext", "preview", "bodypreview", "content",
   "opfmessagecopybody"]

def sentKeys : List String :=
  ["datesent", "datetimesent", "sent", "date", "receivedtime",
   "opfmessagecopyreceivedtime", "opfmessagecopysenttime"]

def senderKeys : List String :=
  ["from", "sender", "fromname", "fromemailaddress",
   "opfmessagecopysenderaddress"]

def toKeys : List String :=
  ["to", "torecipients", "recipient", "toaddresses", "toemailaddress"]

def ccKeys : List String :=
  ["cc", "ccrecipients", "ccaddresses", "ccemailaddress"]

def bccKeys : List String :=
  ["bcc", "bccrecipients", "bccaddresses", "bccemailaddress"]

/-- `x or None` on an optional string: `some ""` collapses to `none`
(Python truthiness); used for the `_pick(...) or None` lines. -/
def orNone (x : Option String) : Option String :=
  if truthyOpt x then x else none

/-- `s or None` on a plain string. -/
def strOrNone (s : String) : Option String :=
  if s = "" then none else some s

/-- `omx_convert.py` line 61: the resolved subject
(`_pick(flat, [...]) or None`). -/
def xmlSubject (doc : XDoc) : Option String :=
  orNone (_pick (_flatten_xml doc) subjectKeys)

/-- `omx_convert.py` line 62: the resolved body. -/
def xmlBody (doc : XDoc) : Option String :=
  orNone (_pick (_flatten_xml doc) bodyKeys)

/-- `omx_convert.py` line 63: the resolved sent date. -/
def xmlSent (doc : XDoc) : Option String :=
  orNone (_pick (_flatten_xml doc) sentKeys)

/-- `omx_convert.py` lines 64-93: the three-stage sender resolution —
regex over the resolved "from" block, then `emailaddress` element
attributes, then any flattened value. -/
def xmlSenderEmail (findEmails : String → List String) (doc : XDoc) :
    Option String :=
  let s1 := searchEmail findEmails
    ((orNone (_pick (_flatten_xml doc) senderKeys)).getD "")
  let s2 := if truthyOpt s1 then s1 else senderFromAttrs findEmails doc
  if truthyOpt s2 then s2
  else senderFromAnywhere findEmails (_flatten_xml doc)

/-- `omx_convert.py` lines 53-121, `parse_message_xml`: flatten, resolve
each field by ordered candidate probing, three-stage sender fallback,
recipient collection, then discard when subject and body are both
absent; otherwise the stored record (`external_id` =
`sha1(path + subject)`, tags left `None`). -/
def parse_message_xml (findEmails : String → List String)
    (sha1 : String → String) (path : String) (doc : XDoc) : Option Rec :=
  if ¬ truthyOpt (xmlSubject doc) ∧ ¬ truthyOpt (xmlBody doc) then none
  else some {
    external_id := sha1 (path ++ (xmlSubject doc).getD "")
    thread_id := none
    folder := none
    sender_name := xmlSenderEmail findEmails doc
    sender_email := xmlSenderEmail findEmails doc
    recipients_to := strOrNone (_collect_emails findEmails (_flatten_xml doc) toKeys)
    recipients_cc := strOrNone (_collect_emails findEmails (_flatten_xml doc) ccKeys)
    recipients_bcc := strOrNone (_collect_emails findEmails (_flatten_xml doc) bccKeys)
    subject := xmlSubject doc
    body := xmlBody doc
    sent_at := xmlSent doc
    received_at := xmlSent doc
    account_tag := none
    partner_tags := none
  }

/-- `omx_convert.py` lines 214-218: when the parsed record's body is
falsy, `_collect_body_from_parts` (its result abstracted as the `recon`
string) replaces it when non-empty; the record is then handed to
`upsert_message` as is — no tagging is applied on this path
(line 226: tagging is deferred to a later post-pass). -/
def omxFinalRec (recon : String) (rec : Rec) : Rec :=
  if truthyOpt rec.body then rec
  else if recon ≠ "" then { rec with body := some recon } else rec

/-- Spec-side de-duplication, from the spec's words: "de-duplication
preserves first-seen order" — keep each element's first occurrence, in
order of first appearance (later occurrences are filtered out). -/
def specDedup : List String → List String
  | [] => []
  | e :: rest => e :: (specDedup rest).filter (fun y => !(y == e))

/-! ### ICS calendar parsing (`pst_extract.py` lines 116-150, 389-405) -/

/-- One step of the unfolding loop (`pst_extract.py` lines 128-133): a
line starting with space or tab is stripped and appended to the previous
logical line (dropped when there is none); other lines start a new
logical line. -/
def addRaw (acc : List String) (raw : String) : List String :=
  if charsPre " ".data raw.data || charsPre "\t".data raw.data then
    match acc with
    | [] => []
    | _ => acc.dropLast ++ [acc.getLastD "" ++ strTrim raw]
  else acc ++ [raw]

/-- RFC-5545 line unfolding over the file's raw lines. -/
def unfoldLines (raws : List String) : List String :=
  raws.foldl addRaw []

/-- Split a character list at the first occurrence of `c`
(Python `s.split(c, 1)` when it has two pieces). -/
def breakAt (c : Char) : List Char → Option (List Char × List Char)
  | [] => none
  | x :: xs =>
    if x == c then some ([], xs)
    else (breakAt c xs).map (fun p => (x :: p.1, p.2))

/-- `ln.split(":", 1)` as strings, `none` when `":" not in ln`. -/
def splitColon (ln : String) : Option (String × String) :=
  (breakAt ':' ln.data).map (fun p => (String.mk p.1, String.mk p.2))

/-- `k.split(";", 1)[0]`. -/
def dropParams (k : String) : String :=
  match breakAt ';' k.data with
  | none => k
  | some p => String.mk p.1

/-- A VEVENT accumulated as its `KEY:VALUE` assignments in order;
`cur[k] = v` overwrites, so lookup takes the last binding. -/
abbrev Ev := List (String × String)

/-- Dict lookup with last-write-wins semantics. -/
def evGet (ev : Ev) (k : String) : Option String :=
  (ev.reverse.find? (fun p => p.1 == k)).map (·.2)

/-- `pst_extract.py` lines 134-146: scan logical lines for
`BEGIN:VEVENT` / `END:VEVENT` blocks, recording `KEY:VALUE` pairs (key
truncated at `;`, upper-cased) inside a block; an unterminated block is
dropped. -/
def scanEvents : List String → Option Ev → List Ev → List Ev
  | [], _, evs => evs
  | ln :: rest, cur, evs =>
    if strTrim ln == "BEGIN:VEVENT" then scanEvents rest (some []) evs
    else if strTrim ln == "END:VEVENT" then
      match cur with
      | some c => scanEvents rest none (evs ++ [c])
      | none => scanEvents rest none evs
    else
      match cur with
      | none => scanEvents rest none evs
      | some c =>
        match splitColon ln with
        | none => scanEvents rest (some c) evs
        | some (k, v) =>
          scanEvents rest (some (c ++ [(strUpper (dropParams k), v)])) evs

/-- The VEVENTs of one `.ics` file: unfold, then block-scan. -/
def parse_ics (raws : List String) : List Ev :=
  scanEvents (unfoldLines raws) none []

/-- `pst_extract.py` lines 396-404: `starts_at` / `ends_at` of one
event.  `dateparse.parse` is the `dp` parameter (`none` models a raised
parse error); the surrounding `try` swallows the error, leaving the
fields at `None`.  A failure while parsing `DTEND` keeps the already
assigned `starts_at`. -/
def eventTimes (dp : String → Option DT) (ev : Ev) :
    Option String × Option String :=
  let s0 : Except Unit (Option String) :=
    match evGet ev "DTSTART" with
    | none => .ok none
    | some v =>
      if v = "" then .ok none
      else match dp v with
        | none => .error ()
        | some d => .ok (iso (some d))
  match s0 with
  | .error _ => (none, none)
  | .ok s =>
    match evGet ev "DTEND" with
    | none => (s, none)
    | some v =>
      if v = "" then (s, none)
      else match dp v with
        | none => (s, none)
        | some d => (s, iso (some d))

/-! ### Checkpoint persistence (`pst_extract.py` lines 500-521,
`omx_convert.py` lines 227-233) -/

/-- The checkpoint file's slice of the filesystem: contents of the real
path and of the `path + ".tmp"` sibling (`none` = file absent). -/
structure FS where
  real : Option String
  tmp : Option String
  deriving Repr, DecidableEq

/-- The interruption points of `_save_state` (and of the identical
inline sequence in `ingest_outlook_mac_dir`): before anything is
written, mid-way through writing the temporary file (`p` is the partial
content on disk), after the temporary file is complete, and after the
atomic `os.replace`. -/
inductive CrashPoint where
  | start
  | duringTmp (p : String)
  | afterTmp
  | done
  deriving Repr, DecidableEq

/-- `_save_state` as observed at each interruption point: serialize the
full state (`ser st`), write it to `path + ".tmp"`, then
`os.replace(tmp, path)` — which atomically installs the new content and
removes the temporary name.  Only the final point touches `real`. -/
def save_state_at (ser : α → String) (st : α) (fs : FS) :
    CrashPoint → FS
  | .start => fs
  | .duringTmp p => { fs with tmp := some p }
  | .afterTmp => { fs with tmp := some (ser st) }
  | .done => { real := some (ser st), tmp := none }

/-! ### Storage upsert and the ingestion loop
(`pst_extract.py` lines 414-468, 500-513) -/

/-- Modelled from the spec: `db.util.upsert_message` is repository code
not present under `src/`.  Per §6, `upsert(record) -> message_id` is
idempotent on `external_id`: an existing row (matched by `external_id`)
is updated in place and its id returned; otherwise a new row is
appended and gets the next id.  The store is the message table in
insertion order; ids are 1-based row positions. -/
def storeIdx : List Rec → String → Nat → Option Nat
  | [], _, _ => none
  | r :: rest, eid, i =>
    if r.external_id == eid then some i else storeIdx rest eid (i + 1)

def upsertWithId (store : List Rec) (rec : Rec) : List Rec × Nat :=
  match storeIdx store rec.external_id 0 with
  | some i => (store.map (fun r =>
      if r.external_id == rec.external_id then rec else r), i + 1)
  | none => (store ++ [rec], store.length + 1)

/-- The stored `external_id` set (as a list in row order). -/
def storeIds (store : List Rec) : List String :=
  store.map (·.external_id)

/-- Checkpoint state: the `"processed"` map from item key to message id
(`-1` is the sentinel for non-message items). -/
abbrev Ck := List (String × Int)

/-- `done.get(path)`: dict lookup (first binding; the map never holds
duplicate keys). -/
def ckLookup : Ck → String → Option Int
  | [], _ => none
  | (k', v) :: rest, k => if k' == k then some v else ckLookup rest k

/-- `if done.get(path):` — present with a non-zero id (Python `None`
and `0` are falsy; stored ids are row ids ≥ 1, `-1` for non-message
items). -/
def ckTruthy (ck : Ck) (k : String) : Bool :=
  match ckLookup ck k with
  | none => false
  | some m => m ≠ 0

/-- `_save_progress`: record `item_key → message_id` in the map,
overwriting any prior binding (dict assignment). -/
def ckPut : Ck → String → Int → Ck
  | [], k, mid => [(k, mid)]
  | (k', v) :: rest, k, mid =>
    if k' == k then (k', mid) :: rest else (k', v) :: ckPut rest k mid

/-- One source item: its checkpoint key (file path, or
`path::msg:<index>` for mbox members) and the parsed message. -/
abbrev Item := String × Msg

/-- The per-item loop body of `ingest_from_eml_dir` / `ingest_with_readpst`
(`pst_extract.py` lines 420-429 et al.): `done` is the processed map
loaded once at the start of the run and consulted for skips, while
`_save_progress` extends the on-disk map (`ck`).  A `process_message`
exception aborts the run (`Except.error`). -/
def ingestLoop (pp : Prims) (cfg : Config) (done : Ck) :
    List Item → List Rec → Ck → Except String (List Rec × Ck)
  | [], store, ck => .ok (store, ck)
  | (key, m) :: rest, store, ck =>
    if ckTruthy done key then ingestLoop pp cfg done rest store ck
    else
      match process_message pp cfg m none with
      | .error e => .error e
      | .ok rec =>
        ingestLoop pp cfg done rest (upsertWithId store rec).1
          (ckPut ck key (Int.ofNat (upsertWithId store rec).2))

/-- One ingestion run over a source root: the readers re-walk the same
files, so a run is the loop over the root's item list, with the skip
map loaded from the checkpoint at start. -/
def runIngest (pp : Prims) (cfg : Config) (items : List Item)
    (store : List Rec) (ck : Ck) : Except String (List Rec × Ck) :=
  ingestLoop pp cfg ck items store ck

/-! ### Concrete instances used by witnesses and counterexamples -/

/-- Concrete standard-library primitives: `re.search` never matches
(no subject patterns are exercised), MIME decoding raises (safe
fallback to the raw string), `parseaddr` is the identity (exact for the
bare addresses used below), `parsedate_to_datetime` raises (exact for
the malformed dates used below), SHA-1 is a tagging stand-in. -/
def primsId : Prims :=
  ⟨fun _ _ => false, fun _ => none, fun s => s, fun _ => none,
   fun s => "sha1(" ++ s ++ ")"⟩

def cfgEmpty : Config := ⟨[], [], []⟩

/-! ### C3 — checkpoint write atomicity -/

/-- C3: every checkpoint write serializes the full state, writes it to
the temporary path, then atomically replaces the real path
(`_save_state`, and the identical inline sequence in
`ingest_outlook_mac_dir`); at every interruption point short of the
completed replace the real checkpoint path holds exactly its prior
content, and the completed write installs the full serialized state. -/
theorem c3_checkpoint_atomic {α : Type} (ser : α → String) (st : α)
    (fs : FS) (cp : CrashPoint) (hcp : cp ≠ CrashPoint.done) :
    (save_state_at ser st fs cp).real = fs.real ∧
    save_state_at ser st fs CrashPoint.done = ⟨some (ser st), none⟩ := by
  refine ⟨?_, rfl⟩
  cases cp with
  | start => rfl
  | duringTmp p => rfl
  | afterTmp => rfl
  | done => exact absurd rfl hcp

/-- Witness for C3: crashing after the temp write but before the
rename leaves the prior checkpoint content in place. -/
theorem c3_witness :
    CrashPoint.afterTmp ≠ CrashPoint.done ∧
    (save_state_at (fun s => s) "new" ⟨some "old", none⟩
      CrashPoint.afterTmp).real = some "old" :=
  ⟨by decide,
   (c3_checkpoint_atomic (fun s => s) "new" ⟨some "old", none⟩
     CrashPoint.afterTmp (by decide)).1⟩

/-! ### C4 — exact-address override precedence -/

/-- C4: when the sender address exactly matches a configured address
override, `tag_from_config` returns that override's account as
primary — even when some configured account reaches a heuristic score
of 2 or more on the same message — and the scored loop is never
consulted (the function returns before it). -/
theorem c4_address_override_wins (research : String → String → Bool)
    (cfg : Config) (sender_email : String) (recipients : List String)
    (subject body : String) (t : String)
    (haddr : alookup cfg.addresses sender_email = some t)
    (hcompete : ∃ acc ∈ cfg.accounts,
        2 ≤ accountScore acc sender_email (recipients.map strLower)
            (strLower (subject ++ "\n" ++ body))) :
    tag_from_config research cfg sender_email recipients subject body =
      (some t, [], [(t, "account")]) := by
  unfold tag_from_config
  rw [haddr]

def cfgC4 : Config :=
  ⟨[("boss@x.com", "Override")], [], [⟨"Acme", [], ["acme.com"], [], []⟩]⟩

/-- Witness for C4: the "Acme" account scores 2 via its domain hit on
the recipient, yet the address override wins. -/
theorem c4_witness :
    alookup cfgC4.addresses "boss@x.com" = some "Override" ∧
    (∃ acc ∈ cfgC4.accounts,
        2 ≤ accountScore acc "boss@x.com" (["joe@acme.com"].map strLower)
            (strLower ("s" ++ "\n" ++ "b"))) ∧
    tag_from_config (fun _ _ => false) cfgC4 "boss@x.com" ["joe@acme.com"]
      "s" "b" = (some "Override", [], [("Override", "account")]) :=
  ⟨by decide,
   ⟨⟨"Acme", [], ["acme.com"], [], []⟩, by decide, by decide⟩,
   c4_address_override_wins (fun _ _ => false) cfgC4 "boss@x.com"
     ["joe@acme.com"] "s" "b" "Override" (by decide)
     ⟨⟨"Acme", [], ["acme.com"], [], []⟩, by decide, by decide⟩⟩

/-! ### C5 — partner tagging vs. overrides -/

/-- The scored loop accumulates, for every account, exactly the
partners whose lower-cased name occurs in the text — independently of
the `primary` / `tags` accumulators. -/
lemma scoreLoop_partners (se : String) (rl : List String) (text : String) :
    ∀ (accs : List Account) (primary : Option String)
      (partners : List String) (tags : List (String × String)),
      (scoreLoop se rl text accs primary partners tags).2.1 =
        partners ++ accs.flatMap (fun acc =>
          acc.partners.filter (fun p => strContains text (strLower p))) := by
  intro accs
  induction accs with
  | nil =>
    intro primary partners tags
    simp [scoreLoop]
  | cons acc rest ih =>
    intro primary partners tags
    simp only [scoreLoop]
    rw [ih]
    simp [List.flatMap_cons, List.append_assoc]

def cfgC5 : Config :=
  ⟨[("boss@x.com", "Override")], [], [⟨"Acme", [], [], [], ["Globex"]⟩]⟩

/-- C5 as stated is false: with an exact-address override in force,
`tag_from_config` returns immediately with an **empty** partner list,
even though the configured partner name "Globex" occurs (case-
insensitively) in the combined subject+body text. -/
theorem c5_counterexample :
    alookup cfgC5.addresses "boss@x.com" = some "Override" ∧
    strContains (strLower ("hi" ++ "\n" ++ "deal with Globex"))
      (strLower "Globex") = true ∧
    (tag_from_config (fun _ _ => false) cfgC5 "boss@x.com" []
      "hi" "deal with Globex").2.1 = [] := by
  refine ⟨by decide, by decide, by decide⟩

/-- C5 amended: partner scanning runs only when no address or
subject-pattern override matched; in that case every configured
account's partner names are scanned as case-insensitive substrings of
the combined subject+body text and each match adds a partner tag,
independently of which (or whether any) account became primary. -/
theorem c5_partner_tags_scored_path (research : String → String → Bool)
    (cfg : Config) (sender_email : String) (recipients : List String)
    (subject body : String)
    (haddr : alookup cfg.addresses sender_email = none)
    (hpat : findSubjectPat research cfg.subject_patterns subject = none) :
    (tag_from_config research cfg sender_email recipients subject body).2.1 =
      cfg.accounts.flatMap (fun acc => acc.partners.filter (fun p =>
        strContains (strLower (subject ++ "\n" ++ body)) (strLower p))) := by
  unfold tag_from_config
  rw [haddr, hpat]
  simpa using scoreLoop_partners sender_email (recipients.map strLower)
    (strLower (subject ++ "\n" ++ body)) cfg.accounts none [] []

def cfgC5w : Config := ⟨[], [], [⟨"Acme", [], [], [], ["Globex"]⟩]⟩

/-- Witness for C5 (amended): no override matches, the "Acme" account
does not qualify as primary (score 0), yet the partner tag "Globex" is
still assigned. -/
theorem c5_witness :
    alookup cfgC5w.addresses "a@b.co" = none ∧
    findSubjectPat (fun _ _ => false) cfgC5w.subject_patterns "x" = none ∧
    (tag_from_config (fun _ _ => false) cfgC5w "a@b.co" [] "x"
      "Globex deal").2.1 =
      cfgC5w.accounts.flatMap (fun acc => acc.partners.filter (fun p =>
        strContains (strLower ("x" ++ "\n" ++ "Globex deal")) (strLower p))) ∧
    (tag_from_config (fun _ _ => false) cfgC5w "a@b.co" [] "x"
      "Globex deal").1 = none ∧
    (tag_from_config (fun _ _ => false) cfgC5w "a@b.co" [] "x"
      "Globex deal").2.1 = ["Globex"] :=
  ⟨by decide, by decide,
   c5_partner_tags_scored_path (fun _ _ => false) cfgC5w "a@b.co" [] "x"
     "Globex deal" (by decide) (by decide),
   by decide, by decide⟩

/-! ### C6 — first-candidate-wins field resolution -/

/-- C6: `_pick` — the resolver used for every canonical field of an
XML-sourced record — returns the first candidate key with a non-empty
bucket: with all earlier candidates empty and `k` populated, `k`'s
first value wins whatever later candidates hold; and a parsed record's
subject / body / sent-date are exactly `_pick` over the documented
candidate lists. -/
theorem c6_first_candidate_wins :
    (∀ (flat : Flat) (pre post : List String) (k v : String)
        (vs : List String), (∀ k' ∈ pre, flatGet flat k' = []) →
        flatGet flat k = v :: vs →
        _pick flat (pre ++ k :: post) = some v) ∧
    (∀ (fe : String → List String) (sha : String → String)
        (path : String) (doc : XDoc) (rec : Rec),
        parse_message_xml fe sha path doc = some rec →
        rec.subject = orNone (_pick (_flatten_xml doc) subjectKeys) ∧
        rec.body = orNone (_pick (_flatten_xml doc) bodyKeys) ∧
        rec.sent_at = orNone (_pick (_flatten_xml doc) sentKeys)) := by
  constructor
  · intro flat pre
    induction pre with
    | nil =>
      intro post k v vs _ hk
      simp [_pick, hk]
    | cons k' pre' ih =>
      intro post k v vs hpre hk
      have h0 : flatGet flat k' = [] := hpre k' (by simp)
      simp only [List.cons_append, _pick, h0]
      exact ih post k v vs (fun x hx => hpre x (by simp [hx])) hk
  · intro fe sha path doc rec h
    unfold parse_message_xml at h
    split at h
    · exact absurd h (by simp)
    · obtain rfl : _ = rec := Option.some.injEq _ _ ▸ h
      exact ⟨rfl, rfl, rfl⟩

def docC6 : XDoc := [⟨"mssubject", "A", []⟩, ⟨"title", "B", []⟩]

/-- Witness for C6: with both "mssubject" and "title" populated, the
earlier-listed "mssubject" wins the subject resolution. -/
theorem c6_witness :
    (∀ k' ∈ ["subject"], flatGet (_flatten_xml docC6) k' = []) ∧
    flatGet (_flatten_xml docC6) "mssubject" = ["A"] ∧
    flatGet (_flatten_xml docC6) "title" = ["B"] ∧
    _pick (_flatten_xml docC6) subjectKeys = some "A" :=
  ⟨by decide, by decide, by decide,
   c6_first_candidate_wins.1 (_flatten_xml docC6) ["subject"]
     ["itemsubject", "title", "opfmessagecopysubject"] "mssubject" "A" []
     (by decide) (by decide)⟩

/-! ### C2 — the subject-or-body content invariant -/

def msgC2 : Msg := ⟨[("Message-ID", "<x@y>")], false, [], some ""⟩

/-- C2 as stated is false: `process_message` contains no discard — a
non-multipart message whose content and subject are both empty is still
turned into a record (and handed to `upsert_message`) with
`subject = ""` and `body = ""`. -/
theorem c2_counterexample :
    (process_message primsId cfgEmpty msgC2 none).map
      (fun r => (r.subject, r.body)) = Except.ok (some "", some "") := by
  rfl

/-- The body-reconstruction step never changes the subject. -/
lemma omxFinalRec_subject (recon : String) (rec : Rec) :
    (omxFinalRec recon rec).subject = rec.subject := by
  unfold omxFinalRec
  split
  · rfl
  · split <;> rfl

/-- The body-reconstruction step keeps a truthy body. -/
lemma omxFinalRec_body_truthy (recon : String) (rec : Rec)
    (hb : truthyOpt rec.body = true) :
    (omxFinalRec recon rec).body = rec.body := by
  unfold omxFinalRec
  rw [if_pos hb]

/-- C2 amended: the both-empty discard exists only on the flattened-XML
path — every record `parse_message_xml` returns (also after the
sibling-part body reconstruction applied before storage) has a truthy
subject or a truthy body; the header/MIME path stores records even when
both are empty. -/
theorem c2_xml_content_invariant (fe : String → List String)
    (sha : String → String) (path : String) (doc : XDoc) (rec : Rec)
    (recon : String)
    (h : parse_message_xml fe sha path doc = some rec) :
    truthyOpt (omxFinalRec recon rec).subject = true ∨
    truthyOpt (omxFinalRec recon rec).body = true := by
  unfold parse_message_xml at h
  split at h
  · exact absurd h (by simp)
  · rename_i hcond
    obtain rfl : _ = rec := Option.some.injEq _ _ ▸ h
    by_cases hb : truthyOpt (xmlBody doc) = true
    · right
      rw [omxFinalRec_body_truthy recon _ hb]
      exact hb
    · left
      have hs : truthyOpt (xmlSubject doc) = true := by
        rcases Decidable.not_and_iff_or_not.mp hcond with h1 | h1
        · exact Decidable.of_not_not h1
        · exact absurd (fun hh => hb hh) h1
      rw [omxFinalRec_subject]
      exact hs

def docC2w : XDoc := [⟨"subject", "S", []⟩]

def recC2w : Rec :=
  ⟨"sha1(w.xmlS)", none, none, none, none, none, none, none,
   some "S", none, none, none, none, none⟩

/-- Witness for C2 (amended): a subject-only XML record passes the
invariant. -/
theorem c2_witness :
    parse_message_xml (fun _ => []) (fun s => "sha1(" ++ s ++ ")")
      "w.xml" docC2w = some recC2w ∧
    (truthyOpt (omxFinalRec "" recC2w).subject = true ∨
     truthyOpt (omxFinalRec "" recC2w).body = true) :=
  ⟨by rfl,
   c2_xml_content_invariant (fun _ => []) (fun s => "sha1(" ++ s ++ ")")
     "w.xml" docC2w recC2w "" (by rfl)⟩

/-! ### C7 — recipient de-duplication -/

def msgC7 : Msg :=
  ⟨[("Message-ID", "<m@x>"), ("To", "a@x"), ("To", "b@x"), ("To", "a@x"),
    ("To", "c@x")], false, [], some "hello"⟩

/-- C7 as stated is false: the header/MIME path joins the parsed
addresses of the `To` headers without de-duplication — the address
sequence `[a@x, b@x, a@x, c@x]` is stored as `"a@x;b@x;a@x;c@x"`, not
`"a@x;b@x;c@x"`. -/
theorem c7_counterexample :
    (process_message primsId cfgEmpty msgC7 none).map
      (fun r => r.recipients_to) = Except.ok (some "a@x;b@x;a@x;c@x") ∧
    "a@x;b@x;a@x;c@x" ≠ "a@x;b@x;c@x" := by
  exact ⟨by rfl, by decide⟩

/-- The source's de-duplication loop equals first-seen de-duplication
filtered by the already-seen set. -/
lemma dedupeKeep_eq (l : List String) :
    ∀ seen, dedupeKeep l seen =
      (specDedup l).filter (fun x => !(decide (x ∈ seen))) := by
  induction l with
  | nil => intro seen; rfl
  | cons e rest ih =>
    intro seen
    by_cases he : e ∈ seen
    · simp only [dedupeKeep, if_pos he, ih seen, specDedup]
      have hpe : (!(decide (e ∈ seen))) = false := by simp [he]
      rw [List.filter_cons, hpe, List.filter_filter]
      apply List.filter_congr
      intro y _
      by_cases hy : y = e
      · subst hy; simp [he]
      · simp [hy]
    · simp only [dedupeKeep, if_neg he, ih (e :: seen), specDedup]
      have hpe : (!(decide (e ∈ seen))) = true := by simp [he]
      rw [List.filter_cons, hpe, List.filter_filter]
      simp only [if_true]
      congr 1
      apply List.filter_congr
      intro y _
      by_cases hy : y = e
      · subst hy; simp
      · simp [hy]

/-- First-seen de-duplication yields a subsequence of its input
(relative order preserved). -/
lemma specDedup_sublist : ∀ l : List String,
    List.Sublist (specDedup l) l := by
  intro l
  induction l with
  | nil => simp [specDedup]
  | cons e rest ih =>
    simp only [specDedup]
    exact List.Sublist.cons₂ e ((List.filter_sublist _).trans ih)

/-- First-seen de-duplication yields a duplicate-free list. -/
lemma specDedup_nodup : ∀ l : List String, (specDedup l).Nodup := by
  intro l
  induction l with
  | nil => simp [specDedup]
  | cons e rest ih =>
    simp only [specDedup]
    rw [List.nodup_cons]
    refine ⟨?_, List.Nodup.filter _ ih⟩
    intro hmem
    have := List.of_mem_filter hmem
    simp at this

/-- C7 amended: on the flattened-XML path, `_collect_emails` joins with
`";"` the first-seen de-duplication of the extracted address sequence —
order-preserving (a subsequence of the input) and duplicate-free, with
`[a, b, a, c]` stored as `"a;b;c"`; the header/MIME path joins parsed
header addresses without de-duplication. -/
theorem c7_collect_first_seen (fe : String → List String) (flat : Flat)
    (keys : List String) :
    _collect_emails fe flat keys = String.intercalate ";"
      (specDedup (keys.flatMap (fun k => (flatGet flat k).flatMap fe))) ∧
    (specDedup (keys.flatMap (fun k => (flatGet flat k).flatMap fe))).Nodup ∧
    List.Sublist
      (specDedup (keys.flatMap (fun k => (flatGet flat k).flatMap fe)))
      (keys.flatMap (fun k => (flatGet flat k).flatMap fe)) ∧
    specDedup ["a", "b", "a", "c"] = ["a", "b", "c"] := by
  refine ⟨?_, specDedup_nodup _, specDedup_sublist _, by decide⟩
  show String.intercalate ";"
      (dedupeKeep (keys.flatMap fun k => (flatGet flat k).flatMap fe) []) = _
  rw [dedupeKeep_eq]
  simp

/-! ### C8 — date handling -/

def msgC8 : Msg :=
  ⟨[("Message-ID", "<d@x>"), ("Date", "not a date")], false, [], some "hi"⟩

/-- C8 evaluated at the failing input: a malformed `Date` header makes
`parsedate_to_datetime` raise, and `process_message` has no handler —
the exception escapes message processing instead of yielding null.
Additionally, `iso` returns `None` for every timezone-aware parsed
datetime (its `dt.astimezone(datetime.utc)` branch always raises
`AttributeError` — `datetime.utc` does not exist — and the handler
swallows it), while a naive datetime does format. -/
theorem c8_date_failure :
    process_message primsId cfgEmpty msgC8 none =
      Except.error "ValueError: unparseable Date header" ∧
    iso (some ⟨true, "2024-01-01T09:00:00Z"⟩) = none ∧
    iso (some ⟨false, "2024-01-01T09:00:00Z"⟩) =
      some "2024-01-01T09:00:00Z" := by
  exact ⟨by rfl, by rfl, by rfl⟩

/-! ### C9 — ICS ingestion -/

def linesC9 : List String :=
  ["BEGIN:VCALENDAR", "BEGIN:VEVENT", "SUMMARY:Standup",
   "DESCRIPTION:first", "  more", "DTSTART:20240101T090000Z",
   "END:VEVENT", "END:VCALENDAR"]

def evC9 : Ev :=
  [("SUMMARY", "Standup"), ("DESCRIPTION", "firstmore"),
   ("DTSTART", "20240101T090000Z")]

/-- `dateutil.parser.parse("20240101T090000Z")` succeeds and returns a
timezone-aware (UTC) datetime. -/
def dpC9 : String → Option DT := fun _ => some ⟨true, "2024-01-01T09:00:00Z"⟩

/-- C9 evaluated on the spec's scenario: the ICS parser itself behaves
as claimed — the folded `DESCRIPTION` continuation is unfolded onto the
previous line, exactly one VEVENT is extracted, `DTSTART` is present
and `DTEND` absent; but the `starts_at` the ingestion phase would store
is `None`, not a valid timestamp, because `iso` nulls every tz-aware
datetime (the `datetime.utc` slip) — and the ICS phase of
`ingest_with_readpst` cannot run at all, since it iterates
`parse_ics_stream(root_dir)` with `root_dir` undefined in that
function (`NameError`). -/
theorem c9_ics_event :
    parse_ics linesC9 = [evC9] ∧
    evGet evC9 "DESCRIPTION" = some "firstmore" ∧
    evGet evC9 "DTSTART" = some "20240101T090000Z" ∧
    evGet evC9 "DTEND" = none ∧
    eventTimes dpC9 evC9 = (none, none) := by
  exact ⟨by rfl, by rfl, by rfl, by rfl, by rfl⟩

/-! ### C10 — tagging before storage -/

def feC10 : String → List String :=
  fun s => if s == "ap@acme.com" then ["ap@acme.com"] else []

def docC10 : XDoc := [⟨"subject", "Invoice", []⟩, ⟨"from", "ap@acme.com", []⟩]

def cfgC10 : Config := ⟨[], [], [⟨"Acme", [], ["acme.com"], [], []⟩]⟩

/-- C10 as stated is false: the Outlook-Mac XML path upserts the parsed
record as is, with `account_tag = None` and no tagger call (the source
comments that tagging is deferred to a post-pass) — here the tagger,
evaluated on the same message's fields, would assign primary "Acme". -/
theorem c10_counterexample :
    (parse_message_xml feC10 (fun s => "sha1(" ++ s ++ ")") "p.xml"
      docC10).map (fun r => (r.account_tag, r.sender_email, r.subject)) =
      some (none, some "ap@acme.com", some "Invoice") ∧
    (tag_from_config (fun _ _ => false) cfgC10 "ap@acme.com" []
      "Invoice" "").1 = some "Acme" ∧
    (none : Option String) ≠ some "Acme" := by
  exact ⟨by rfl, by rfl, by decide⟩

/-- C10 amended: on the header/MIME ingestion paths every stored record
carries exactly the tagger's outputs for the message's resolved sender,
recipients, subject and body; the Outlook-Mac XML path does **not** run
the tagger — its stored records always have `account_tag = None` and
`partner_tags = None`. -/
theorem c10_tagging_per_path :
    (∀ (pp : Prims) (cfg : Config) (m : Msg) (folder : Option String)
        (rec : Rec), process_message pp cfg m folder = .ok rec →
        rec.account_tag = (tag_from_config pp.research cfg
          (pp.parseaddr (m.getD "From"))
          (recipListOf (joinAddrs pp.parseaddr (m.getAll "To"))
            (joinAddrs pp.parseaddr (m.getAll "Cc"))
            (joinAddrs pp.parseaddr (m.getAll "Bcc")))
          (safe_decode pp.decodeHdr (m.getD "Subject"))
          (extract_body m).1).1 ∧
        rec.partner_tags = (if (tag_from_config pp.research cfg
          (pp.parseaddr (m.getD "From"))
          (recipListOf (joinAddrs pp.parseaddr (m.getAll "To"))
            (joinAddrs pp.parseaddr (m.getAll "Cc"))
            (joinAddrs pp.parseaddr (m.getAll "Bcc")))
          (safe_decode pp.decodeHdr (m.getD "Subject"))
          (extract_body m).1).2.1 ≠ [] then
            some (String.intercalate ";" (tag_from_config pp.research cfg
              (pp.parseaddr (m.getD "From"))
              (recipListOf (joinAddrs pp.parseaddr (m.getAll "To"))
                (joinAddrs pp.parseaddr (m.getAll "Cc"))
                (joinAddrs pp.parseaddr (m.getAll "Bcc")))
              (safe_decode pp.decodeHdr (m.getD "Subject"))
              (extract_body m).1).2.1)
          else none)) ∧
    (∀ (fe : String → List String) (sha : String → String)
        (path : String) (doc : XDoc) (rec : Rec),
        parse_message_xml fe sha path doc = some rec →
        rec.account_tag = none ∧ rec.partner_tags = none) := by
  constructor
  · intro pp cfg m folder rec h
    unfold process_message at h
    split at h
    · exact absurd h (by simp)
    · obtain rfl : _ = rec := Except.ok.injEq _ _ ▸ h
      exact ⟨rfl, rfl⟩
  · intro fe sha path doc rec h
    unfold parse_message_xml at h
    split at h
    · exact absurd h (by simp)
    · obtain rfl : _ = rec := Option.some.injEq _ _ ▸ h
      exact ⟨rfl, rfl⟩

def msgC10w : Msg :=
  ⟨[("Message-ID", "<w@x>"), ("From", "ap@acme.com"), ("Subject", "Hi")],
   false, [], some "Body"⟩

def recC10w : Rec :=
  ⟨"<w@x>", none, none, some "ap@acme.com", some "ap@acme.com",
   some "", some "", some "", some "Hi", some "Body", none, none,
   some "Acme", none⟩

def recC10x : Rec :=
  ⟨"sha1(q.xmlInvoice)", none, none, some "ap@acme.com",
   some "ap@acme.com", none, none, none, some "Invoice", none, none,
   none, none, none⟩

/-- Witness for C10 (amended): a header-path record whose stored
primary tag is exactly the tagger's output ("Acme", via the domain
rule), and an XML-path record stored untagged. -/
theorem c10_witness :
    (process_message primsId cfgC10 msgC10w none).map
      (fun r => r.account_tag) = Except.ok (some "Acme") ∧
    (parse_message_xml feC10 (fun s => "sha1(" ++ s ++ ")") "q.xml"
      docC10).map (fun r => r.account_tag) = some none := by
  constructor
  · have h : process_message primsId cfgC10 msgC10w none =
        .ok recC10w := by rfl
    have := (c10_tagging_per_path.1 primsId cfgC10 msgC10w none recC10w h).1
    rw [h]
    simp only [Except.map]
    rw [this]
    rfl
  · have h : parse_message_xml feC10 (fun s => "sha1(" ++ s ++ ")")
        "q.xml" docC10 = some recC10x := by rfl
    have := (c10_tagging_per_path.2 feC10 (fun s => "sha1(" ++ s ++ ")")
      "q.xml" docC10 recC10x h).1
    rw [h]
    simp only [Option.map]
    rw [this]

/-! ### C1 — re-ingestion idempotence -/

/-- Upsert-assigned message ids are at least 1, hence truthy. -/
lemma upsertWithId_id_pos (store : List Rec) (rec : Rec) :
    1 ≤ (upsertWithId store rec).2 := by
  unfold upsertWithId
  split <;> simp

/-- The id written to the checkpoint is never the falsy `0`. -/
lemma upsert_mid_ne_zero (store : List Rec) (rec : Rec) :
    Int.ofNat (upsertWithId store rec).2 ≠ 0 := by
  have h := upsertWithId_id_pos store rec
  intro hc
  have h0 : (upsertWithId store rec).2 = 0 := Int.ofNat.inj hc
  omega

/-- Dict assignment only touches the assigned key. -/
lemma ckLookup_put (k k' : String) (mid : Int) :
    ∀ ck : Ck, ckLookup (ckPut ck k mid) k' =
      if k' = k then some mid else ckLookup ck k' := by
  intro ck
  induction ck with
  | nil =>
    by_cases h : k' = k
    · subst h
      simp [ckPut, ckLookup]
    · simp [ckPut, ckLookup, h, Ne.symm h]
  | cons p rest ih =>
    obtain ⟨k₀, v₀⟩ := p
    by_cases h0 : k₀ = k
    · subst h0
      by_cases h1 : k' = k₀
      · subst h1
        simp [ckPut, ckLookup]
      · simp [ckPut, ckLookup, h1, Ne.symm h1]
    · by_cases h1 : k' = k₀
      · subst h1
        simp [ckPut, ckLookup, h0, Ne.symm h0, ih]
      · simp [ckPut, ckLookup, h0, Ne.symm h1, ih]

/-- A truthy checkpoint entry stays truthy across `_save_progress`
writes (they always store non-zero ids). -/
lemma ckTruthy_put_of (ck : Ck) (k k' : String) (mid : Int)
    (hm : mid ≠ 0) (h : ckTruthy ck k' = true) :
    ckTruthy (ckPut ck k mid) k' = true := by
  unfold ckTruthy at *
  rw [ckLookup_put]
  by_cases hk : k' = k
  · simp [hk, hm]
  · rw [if_neg hk]
    exact h

/-- The key just written is truthy. -/
lemma ckTruthy_put_self (ck : Ck) (k : String) (mid : Int)
    (hm : mid ≠ 0) : ckTruthy (ckPut ck k mid) k = true := by
  unfold ckTruthy
  rw [ckLookup_put]
  simp [hm]

/-- An ingestion run never loses checkpoint truthiness. -/
lemma ingestLoop_truthy_mono (pp : Prims) (cfg : Config) (done : Ck) :
    ∀ (items : List Item) (store : List Rec) (ck : Ck)
      (st' : List Rec) (ck' : Ck),
      ingestLoop pp cfg done items store ck = .ok (st', ck') →
      ∀ k, ckTruthy ck k = true → ckTruthy ck' k = true := by
  intro items
  induction items with
  | nil =>
    intro store ck st' ck' h k hk
    simp only [ingestLoop, Except.ok.injEq, Prod.mk.injEq] at h
    obtain ⟨rfl, rfl⟩ := h
    exact hk
  | cons item rest ih =>
    obtain ⟨key, m⟩ := item
    intro store ck st' ck' h k hk
    simp only [ingestLoop] at h
    split at h
    · exact ih store ck st' ck' h k hk
    · split at h
      · exact absurd h (by simp)
      · rename_i rec heq
        refine ih _ _ st' ck' h k ?_
        exact ckTruthy_put_of ck key k _ (upsert_mid_ne_zero store rec) hk

/-- After a successful run, every item key of the run is truthy in the
final checkpoint (skipped keys were already truthy and survive;
processed keys are written with a non-zero id). -/
lemma ingestLoop_keys_truthy (pp : Prims) (cfg : Config) (done : Ck) :
    ∀ (items : List Item) (store : List Rec) (ck : Ck)
      (st' : List Rec) (ck' : Ck),
      ingestLoop pp cfg done items store ck = .ok (st', ck') →
      (∀ k, ckTruthy done k = true → ckTruthy ck k = true) →
      ∀ it ∈ items, ckTruthy ck' it.1 = true := by
  intro items
  induction items with
  | nil =>
    intro _ _ _ _ _ _ it hit
    exact absurd hit (List.not_mem_nil it)
  | cons item rest ih =>
    obtain ⟨key, m⟩ := item
    intro store ck st' ck' h hdone it hit
    simp only [ingestLoop] at h
    split at h
    · rename_i hskip
      rcases List.mem_cons.mp hit with rfl | hmem
      · exact ingestLoop_truthy_mono pp cfg done rest store ck st' ck' h
          key (hdone key hskip)
      · exact ih store ck st' ck' h hdone it hmem
    · split at h
      · exact absurd h (by simp)
      · rename_i rec heq
        rcases List.mem_cons.mp hit with rfl | hmem
        · exact ingestLoop_truthy_mono pp cfg done rest _ _ st' ck' h key
            (ckTruthy_put_self ck key _ (upsert_mid_ne_zero store rec))
        · refine ih _ _ st' ck' h ?_ it hmem
          intro k hk
          exact ckTruthy_put_of ck key k _ (upsert_mid_ne_zero store rec)
            (hdone k hk)

/-- A run whose skip map is truthy on every item key does nothing. -/
lemma ingestLoop_all_skip (pp : Prims) (cfg : Config) (done : Ck) :
    ∀ (items : List Item) (store : List Rec) (ck : Ck),
      (∀ it ∈ items, ckTruthy done it.1 = true) →
      ingestLoop pp cfg done items store ck = .ok (store, ck) := by
  intro items
  induction items with
  | nil => intro store ck _; rfl
  | cons item rest ih =>
    obtain ⟨key, m⟩ := item
    intro store ck h
    have hk : ckTruthy done key = true := h (key, m) (List.mem_cons_self _ _)
    simp only [ingestLoop, hk, if_true]
    exact ih store ck (fun it hit => h it (List.mem_cons_of_mem _ hit))

/-- A stored `external_id` is found by the index scan. -/
lemma storeIdx_mem (eid : String) :
    ∀ (store : List Rec) (n : Nat), eid ∈ storeIds store →
      ∃ i, storeIdx store eid n = some i := by
  intro store
  induction store with
  | nil =>
    intro n h
    exact absurd h (by simp [storeIds])
  | cons r rest ih =>
    intro n h
    by_cases hr : r.external_id = eid
    · exact ⟨n, by simp [storeIdx, hr]⟩
    · have hmem : eid ∈ storeIds rest := by
        simp only [storeIds, List.map_cons, List.mem_cons] at h
        rcases h with h | h
        · exact absurd h.symm hr
        · exact h
      obtain ⟨i, hi⟩ := ih (n + 1) hmem
      exact ⟨i, by simp [storeIdx, hr, hi]⟩

/-- Upserting a record whose `external_id` is already stored changes
neither the row count nor the id column. -/
lemma upsert_existing_ids (store : List Rec) (rec : Rec)
    (h : rec.external_id ∈ storeIds store) :
    storeIds (upsertWithId store rec).1 = storeIds store ∧
    (upsertWithId store rec).1.length = store.length := by
  obtain ⟨i, hi⟩ := storeIdx_mem rec.external_id store 0 h
  unfold upsertWithId
  rw [hi]
  constructor
  · unfold storeIds
    rw [List.map_map]
    apply List.map_congr_left
    intro r _
    by_cases hr : r.external_id = rec.external_id
    · simp [Function.comp, hr]
    · simp [Function.comp, hr]
  · simp

/-- C1: a second ingestion run over the same source root, with the
checkpoint produced by a successful first run, is a no-op — every item
key is already truthy in the loaded processed map, so everything is
skipped and both the stored record list (hence message count and
`external_id` set) and the checkpoint are unchanged.  Moreover (for
items a crashed first run did leave unrecorded), re-upserting a record
whose deterministic `external_id` is already stored inserts no new
row. -/
theorem c1_reingest_idempotent (pp : Prims) (cfg : Config)
    (items : List Item) (store₀ : List Rec) (ck₀ : Ck)
    (st₁ : List Rec) (ck₁ : Ck)
    (h1 : runIngest pp cfg items store₀ ck₀ = .ok (st₁, ck₁)) :
    runIngest pp cfg items st₁ ck₁ = .ok (st₁, ck₁) ∧
    (∀ (store : List Rec) (rec : Rec),
      rec.external_id ∈ storeIds store →
      storeIds (upsertWithId store rec).1 = storeIds store ∧
      (upsertWithId store rec).1.length = store.length) := by
  refine ⟨?_, fun store rec h => upsert_existing_ids store rec h⟩
  have hkeys := ingestLoop_keys_truthy pp cfg ck₀ items store₀ ck₀ st₁ ck₁
    h1 (fun _ hk => hk)
  exact ingestLoop_all_skip pp cfg ck₁ items st₁ ck₁ hkeys

def msgA : Msg :=
  ⟨[("Message-ID", "<a@x>"), ("Subject", "Hi")], false, [], some "Body"⟩

def recA : Rec :=
  ⟨"<a@x>", none, none, some "", some "", some "", some "", some "",
   some "Hi", some "Body", none, none, none, none⟩

/-- Witness for C1: one concrete run stores one message and checkpoints
its key; the second run over the same items is the identity. -/
theorem c1_witness :
    runIngest primsId cfgEmpty [("p1", msgA)] [] [] =
      Except.ok ([recA], [("p1", 1)]) ∧
    runIngest primsId cfgEmpty [("p1", msgA)] [recA] [("p1", 1)] =
      Except.ok ([recA], [("p1", 1)]) :=
  ⟨by rfl,
   (c1_reingest_idempotent primsId cfgEmpty [("p1", msgA)] [] []
     [recA] [("p1", 1)] (by rfl)).1⟩

end Outlookwf
